import Mathlib

/-!
Verification of the PR review orchestration pipeline in
`src/pr-review/BB_Reviewagent.py` (class `ClaudePRReviewer`).

The pipeline is embedded shallowly:

* Texts handled character-by-character by the code (the analyzer response,
  which undergoes `strip()` / fence removal / slicing) are `List Char`;
  other texts are `String`.
* Python dict access is made explicit: a `d['k']` subscript is `getKey`
  (failing with `RunErr.keyError` when the key is absent, as a Python
  `KeyError` would), and `d.get('k', v)` is `Option.getD`.
* The external collaborators (Bitbucket REST API and the Anthropic client,
  both out of scope per the spec) are an oracle record `Env`: each network
  operation's outcome for the run, plus the JSON decoder `jsonDecode`
  standing for `json.loads` (returning `none` exactly when `json.loads`
  would raise `JSONDecodeError`).
* Every network request the code issues is recorded as an `Act`;
  pipeline functions return their result paired with the ordered list of
  actions performed, and a raised-and-caught Python exception is an
  `Except.error`.
-/

/-- Whitespace as stripped by Python's `str.strip()` (ASCII part). -/
def isPySpace (c : Char) : Bool :=
  c == ' ' || c == '\t' || c == '\n' || c == '\r' || c == '\x0b' || c == '\x0c'

/-- Left part of `str.strip()`. -/
def stripLeft (l : List Char) : List Char := l.dropWhile isPySpace

/-- Right part of `str.strip()`. -/
def stripRight (l : List Char) : List Char := (l.reverse.dropWhile isPySpace).reverse

/-- Python `str.strip()`. -/
def pyStrip (l : List Char) : List Char := stripRight (stripLeft l)

/-- The backtick character (written by code point). -/
def tick : Char := '\x60'

/-- The three-backtick fence marker the code tests with `startswith`/`endswith`. -/
def fence3 : List Char := [tick, tick, tick]

/-- The tagged fence marker, i.e. the 7-character fence-plus-json-tag string. -/
def fenceJson : List Char := fence3 ++ ['j', 's', 'o', 'n']

/-- Python slicing `s[:-n]` (empty result when `n` exceeds the length). -/
def pyDropLast (n : Nat) (l : List Char) : List Char := l.take (l.length - n)

/-- Lines 220-230 of the source: `strip()`, removal of a leading
`7-char tagged fence`, a leading bare fence, a trailing bare fence, then a
final `strip()`, in that order. -/
def cleanResponse (t : List Char) : List Char :=
  let t1 := pyStrip t
  let t2 := if fenceJson.isPrefixOf t1 then t1.drop 7 else t1
  let t3 := if fence3.isPrefixOf t2 then t2.drop 3 else t2
  let t4 := if fence3.isSuffixOf t3 then pyDropLast 3 t3 else t3
  pyStrip t4

/-- Python `str.upper()` (ASCII). -/
def pyUpper (s : String) : String := String.mk (s.toList.map Char.toUpper)

/-- Helper for `pyTitle`: uppercase a letter after a non-letter, lowercase
a letter after a letter. -/
def pyTitleAux : Bool → List Char → List Char
  | _, [] => []
  | prevAlpha, c :: rest =>
    (if c.isAlpha then (if prevAlpha then c.toLower else c.toUpper) else c)
      :: pyTitleAux c.isAlpha rest

/-- Python `str.title()`. -/
def pyTitle (s : String) : String := String.mk (pyTitleAux false s.toList)

/-- Python truthiness of an optional string (`None` and `""` are falsy). -/
def pyTruthyStr (v : Option String) : Bool :=
  match v with
  | none => false
  | some s => !(s == "")

/-- Python truthiness of an optional integer (`None` and `0` are falsy). -/
def pyTruthyInt (v : Option Int) : Bool :=
  match v with
  | none => false
  | some n => !(n == 0)

/-- One entry of the diffstat response (`f['new']['path']`). -/
structure ChangedFile where
  newPath : String
deriving DecidableEq

/-- PR metadata used by the prompt (`title` / `description`, both read
with `.get` and a default). -/
structure PrInfo where
  title : Option String
  description : Option String
deriving DecidableEq

/-- `get_pr_changes`'s result: diff text, changed files, PR metadata. -/
structure Changes where
  diff : String
  changed_files : List ChangedFile
  pr_info : PrInfo
deriving DecidableEq

/-- One issue dict of the parsed payload.  A field is `none` when the key
is absent from the JSON object (or is JSON `null`). -/
structure IssueDict where
  file : Option String := none
  line : Option Int := none
  severity : Option String := none
  category : Option String := none
  description : Option String := none
  suggestion : Option String := none
  good_practice : Option Bool := none
deriving DecidableEq

/-- The parsed top-level payload dict. -/
structure ReviewDict where
  summary : Option String := none
  issues : Option (List IssueDict) := none
  recommendations : Option (List String) := none
  positive_notes : Option (List String) := none
deriving DecidableEq

/-- Failure conditions of one run (each a raised Python exception). -/
inductive RunErr
  | keyError
  | hostError
  | authError
  | analyzerError
  | parseError
deriving DecidableEq

/-- A comment as sent to the host: rendered markdown body plus the
optional inline anchor `{"path": file, "to": line}`. -/
structure Comment where
  raw : String
  inline : Option (String × Int)
deriving DecidableEq

/-- Network requests the pipeline can issue, in the order performed. -/
inductive Act
  | listComments
  | testAuth
  | fetchDiff
  | fetchFiles
  | fetchMeta
  | analyze
  | post (c : Comment)
deriving DecidableEq

/-- Configuration relevant to the pipeline logic. -/
structure Config where
  include_low_severity : Bool
deriving DecidableEq

/-- Oracle for the run's external interactions.  `none` / a `false`
post response model a network failure or non-2xx status (for which
`raise_for_status` raises).  `jsonDecode` stands for `json.loads`
composed with reading the payload's shape. -/
structure Env where
  existingComments : Option (List String)
  authOk : Bool
  diffResp : Option String
  filesResp : Option (List ChangedFile)
  prResp : Option PrInfo
  analyzerResp : Option (List Char)
  jsonDecode : List Char → Option ReviewDict
  postResp : Nat → Bool

/-- Python subscript `d['k']`: raises `KeyError` when absent. -/
def getKey {α : Type} (v : Option α) : Except RunErr α :=
  match v with
  | some a => Except.ok a
  | none => Except.error RunErr.keyError

/-- The idempotency marker substring looked for in existing comments. -/
def markerText : String := "Claude Code Review Summary"

/-- Python's substring test `needle in hay`. -/
def containsSub (needle : List Char) : List Char → Bool
  | [] => needle.isEmpty
  | c :: rest => needle.isPrefixOf (c :: rest) || containsSub needle rest

/-- `markerText in comment["content"]["raw"]`. -/
def containsMarker (c : String) : Bool := containsSub markerText.toList c.toList

/-- Lines 122-137: list the PR's comments; `true` iff one contains the
marker.  Any failure is caught, logged as a warning, and treated as
`false` (no existing review). -/
def check_existing_reviews (env : Env) : Bool × List Act :=
  match env.existingComments with
  | none => (false, [Act.listComments])
  | some cs => (cs.any containsMarker, [Act.listComments])

/-- Lines 139-171: authentication test, then diff, diffstat and PR
metadata fetches, each failing the run on a non-2xx response. -/
def get_pr_changes (env : Env) : Except RunErr Changes × List Act :=
  if env.authOk then
    match env.diffResp with
    | none => (Except.error RunErr.hostError, [Act.testAuth, Act.fetchDiff])
    | some d =>
      match env.filesResp with
      | none => (Except.error RunErr.hostError,
          [Act.testAuth, Act.fetchDiff, Act.fetchFiles])
      | some fs =>
        match env.prResp with
        | none => (Except.error RunErr.hostError,
            [Act.testAuth, Act.fetchDiff, Act.fetchFiles, Act.fetchMeta])
        | some pi =>
          (Except.ok ⟨d, fs, pi⟩,
            [Act.testAuth, Act.fetchDiff, Act.fetchFiles, Act.fetchMeta])
  else (Except.error RunErr.authError, [Act.testAuth])

/-- Lines 173-244: send the composed prompt (whose exact text affects no
observable modelled here), clean the response text, and parse it; a
`JSONDecodeError` is re-raised. -/
def analyze_with_claude (env : Env) (_changes : Changes) :
    Except RunErr ReviewDict × List Act :=
  match env.analyzerResp with
  | none => (Except.error RunErr.analyzerError, [Act.analyze])
  | some raw =>
    match env.jsonDecode (cleanResponse raw) with
    | none => (Except.error RunErr.parseError, [Act.analyze])
    | some review => (Except.ok review, [Act.analyze])

/-- Line 252's condition `self.include_low_severity or issue['severity'] != 'low'`,
with Python's short-circuit `or` (the subscript is only evaluated when
`include_low_severity` is false). -/
def keepIssue (includeLow : Bool) (i : IssueDict) : Except RunErr Bool :=
  if includeLow then Except.ok true
  else
    match getKey i.severity with
    | Except.error e => Except.error e
    | Except.ok s => Except.ok (!(s == "low"))

/-- Lines 250-253: the `issues_to_include` list comprehension. -/
def filterIssues (includeLow : Bool) : List IssueDict → Except RunErr (List IssueDict)
  | [] => Except.ok []
  | i :: rest =>
    match keepIssue includeLow i with
    | Except.error e => Except.error e
    | Except.ok keep =>
      match filterIssues includeLow rest with
      | Except.error e => Except.error e
      | Except.ok rest' => Except.ok (if keep then i :: rest' else rest')

/-- `sum(1 for i in l if i['severity'] == s)` (the subscript may raise). -/
def countSeverity (s : String) : List IssueDict → Except RunErr Nat
  | [] => Except.ok 0
  | i :: rest =>
    match getKey i.severity with
    | Except.error e => Except.error e
    | Except.ok sev =>
      match countSeverity s rest with
      | Except.error e => Except.error e
      | Except.ok n => Except.ok ((if sev == s then 1 else 0) + n)

/-- The data rendered into the summary comment (lines 256-275):
severity tallies over the *filtered* list, the summary text, the
recommendations (a raising subscript), the positive notes (defaulted),
and whether the hidden-low-severity note is appended. -/
structure SummaryParts where
  summary : String
  recommendations : List String
  positive_notes : List String
  high_count : Nat
  medium_count : Nat
  low_count : Nat
  hiddenNote : Bool
deriving DecidableEq

/-- Lines 249-275 before any network call: filter, tally, and gather the
summary comment's data, in the evaluation order of the source. -/
def post_prelude (includeLow : Bool) (review : ReviewDict) :
    Except RunErr (List IssueDict × SummaryParts) :=
  match getKey review.issues with
  | Except.error e => Except.error e
  | Except.ok issues =>
    match filterIssues includeLow issues with
    | Except.error e => Except.error e
    | Except.ok included =>
      match countSeverity "high" included with
      | Except.error e => Except.error e
      | Except.ok hc =>
        match countSeverity "medium" included with
        | Except.error e => Except.error e
        | Except.ok mc =>
          match countSeverity "low" included with
          | Except.error e => Except.error e
          | Except.ok lc =>
            match getKey review.summary with
            | Except.error e => Except.error e
            | Except.ok s =>
              match getKey review.recommendations with
              | Except.error e => Except.error e
              | Except.ok recs =>
                Except.ok (included,
                  ⟨s, recs, review.positive_notes.getD [],
                   hc, mc, lc, !includeLow && decide (0 < lc)⟩)

/-- `chr(10).join(f"- {x}" for x in xs)`. -/
def joinDash (xs : List String) : String :=
  String.intercalate "\n" (xs.map (fun r => "- " ++ r))

/-- The summary comment markdown of lines 261-276. -/
def renderSummary (p : SummaryParts) : String :=
  "# Claude Code Review Summary\n\n"
    ++ p.summary
    ++ "\n\n## 🎯 General Recommendations\n"
    ++ joinDash p.recommendations
    ++ "\n\n## ✨ Positive Notes\n"
    ++ joinDash p.positive_notes
    ++ "\n\n## 📊 Issues Overview\n- High Severity: "
    ++ toString p.high_count
    ++ "\n- Medium Severity: "
    ++ toString p.medium_count
    ++ "\n- Low Severity: "
    ++ toString p.low_count
    ++ "\n"
    ++ (if p.hiddenNote then
          "- Note: Low severity issues are hidden (set INCLUDE_LOW_SEVERITY=true to show them)"
        else "")
    ++ "\n"

/-- The severity-emoji dict lookup with `'⚪️'` default (lines 292-296). -/
def severityEmoji (s : String) : String :=
  if s == "high" then "🔴"
  else if s == "medium" then "🟡"
  else if s == "low" then "🟢"
  else "⚪️"

/-- The per-issue comment markdown of lines 300-306. -/
def renderIssueComment (sev cat desc sugg : String) (gp : Bool) : String :=
  "**" ++ severityEmoji sev ++ " " ++ pyUpper sev ++ " Severity "
    ++ pyTitle cat ++ " Issue**\n\n"
    ++ desc
    ++ "\n\n**Suggestion:** " ++ sugg ++ "\n\n"
    ++ (if gp then "✨ **Good Practice!**" else "")

/-- Lines 292-315: build one issue's comment.  Subscripted fields raise
when absent; `good_practice` defaults to false; the inline anchor is
attached when `issue.get('file') and issue.get('line')` is truthy. -/
def buildIssueComment (i : IssueDict) : Except RunErr Comment :=
  match getKey i.severity with
  | Except.error e => Except.error e
  | Except.ok sev =>
    match getKey i.category with
    | Except.error e => Except.error e
    | Except.ok cat =>
      match getKey i.description with
      | Except.error e => Except.error e
      | Except.ok desc =>
        match getKey i.suggestion with
        | Except.error e => Except.error e
        | Except.ok sugg =>
          Except.ok
            { raw := renderIssueComment sev cat desc sugg (i.good_practice.getD false)
              inline :=
                if pyTruthyStr i.file && pyTruthyInt i.line then
                  some (i.file.getD "", i.line.getD 0)
                else none }

/-- Lines 289-319: post one comment per included issue, in order, with
`raise_for_status` after each post; `k` numbers the post requests of
this `post_comments` call. -/
def postLoop (env : Env) : Nat → List IssueDict → Except RunErr Unit × List Act
  | _, [] => (Except.ok (), [])
  | k, i :: rest =>
    match buildIssueComment i with
    | Except.error e => (Except.error e, [])
    | Except.ok c =>
      if env.postResp k then
        let r := postLoop env (k + 1) rest
        (r.1, Act.post c :: r.2)
      else (Except.error RunErr.hostError, [Act.post c])

/-- Lines 246-325: filter and tally, post the summary comment, then post
the per-issue comments. -/
def post_comments (cfg : Config) (env : Env) (review : ReviewDict) :
    Except RunErr Unit × List Act :=
  match post_prelude cfg.include_low_severity review with
  | Except.error e => (Except.error e, [])
  | Except.ok (included, parts) =>
    let c0 : Comment := { raw := renderSummary parts, inline := none }
    if env.postResp 0 then
      let r := postLoop env 1 included
      (r.1, Act.post c0 :: r.2)
    else (Except.error RunErr.hostError, [Act.post c0])

/-- Lines 342-356: tally high and medium severities over the *unfiltered*
`review['issues']` (the low tally of the log line may also raise). -/
def verdict_counts (review : ReviewDict) : Except RunErr (Nat × Nat) :=
  match getKey review.issues with
  | Except.error e => Except.error e
  | Except.ok issues =>
    match countSeverity "high" issues with
    | Except.error e => Except.error e
    | Except.ok hc =>
      match countSeverity "medium" issues with
      | Except.error e => Except.error e
      | Except.ok mc =>
        match countSeverity "low" issues with
        | Except.error e => Except.error e
        | Except.ok _ => Except.ok (hc, mc)

/-- Lines 327-362: the complete review run.  Any exception raised after
the idempotency check is caught at this boundary and converted to
`false`. -/
def run_review (cfg : Config) (env : Env) : Bool × List Act :=
  match check_existing_reviews env with
  | (true, as0) => (true, as0)
  | (false, as0) =>
    match get_pr_changes env with
    | (Except.error _, a) => (false, as0 ++ a)
    | (Except.ok ch, a) =>
      match analyze_with_claude env ch with
      | (Except.error _, b) => (false, as0 ++ a ++ b)
      | (Except.ok review, b) =>
        match post_comments cfg env review with
        | (Except.error _, c) => (false, as0 ++ a ++ b ++ c)
        | (Except.ok _, c) =>
          match verdict_counts review with
          | Except.error _ => (false, as0 ++ a ++ b ++ c)
          | Except.ok (hc, mc) =>
            (!(decide (0 < hc) || decide (3 < mc)), as0 ++ a ++ b ++ c)

/-- Whether an action is a comment post. -/
def isPostAction : Act → Bool
  | Act.post _ => true
  | _ => false

/-- Whether an action is the diff fetch. -/
def isFetchDiff : Act → Bool
  | Act.fetchDiff => true
  | _ => false

/-- Whether an action is a comment post carrying an inline anchor. -/
def postHasInline : Act → Bool
  | Act.post c => c.inline.isSome
  | _ => false

/-- An issue dict holding every key the publishing code subscripts. -/
def issueWF (i : IssueDict) : Bool :=
  i.severity.isSome && i.category.isSome && i.description.isSome && i.suggestion.isSome

/-- A payload dict holding every key the publishing and verdict code
subscripts (the spec's `ReviewResult` with its required fields). -/
def reviewWF (r : ReviewDict) : Bool :=
  r.summary.isSome && r.recommendations.isSome &&
    (match r.issues with
     | none => false
     | some l => l.all issueWF)

/-- The analyzer response wrapped in a tagged markdown fence with
surrounding whitespace. -/
def wrapTag (ws1 p ws2 : List Char) : List Char :=
  ws1 ++ fenceJson ++ ('\n' :: p) ++ ('\n' :: fence3) ++ ws2

/-- The analyzer response wrapped in a bare markdown fence with
surrounding whitespace. -/
def wrapPlain (ws1 p ws2 : List Char) : List Char :=
  ws1 ++ fence3 ++ ('\n' :: p) ++ ('\n' :: fence3) ++ ws2

/-- Sanity: the embedded fence constants spell the source's literals. -/
theorem fence_literals : String.mk fenceJson = "```json" ∧ String.mk fence3 = "```" := by
  constructor <;> rfl

/-! ### Plumbing lemmas about the pipeline steps -/

theorem check_existing_snd (env : Env) :
    (check_existing_reviews env).2 = [Act.listComments] := by
  unfold check_existing_reviews
  cases env.existingComments <;> rfl

theorem get_pr_changes_no_post (env : Env) :
    (get_pr_changes env).2.countP isPostAction = 0 := by
  unfold get_pr_changes
  cases env.authOk <;> cases env.diffResp <;> cases env.filesResp <;> cases env.prResp <;> rfl

theorem analyze_snd (env : Env) (ch : Changes) :
    (analyze_with_claude env ch).2 = [Act.analyze] := by
  unfold analyze_with_claude
  cases h : env.analyzerResp with
  | none => rfl
  | some raw => cases h2 : env.jsonDecode (cleanResponse raw) <;> simp [h2]

theorem keepIssue_ok (b : Bool) (i : IssueDict) (sv : String)
    (hs : i.severity = some sv) :
    keepIssue b i = Except.ok (b || !(sv == "low")) := by
  cases b <;> simp [keepIssue, getKey, hs]

theorem keepIssue_cases (b : Bool) (i : IssueDict) :
    (∃ v, keepIssue b i = Except.ok v) ∨ keepIssue b i = Except.error RunErr.keyError := by
  cases b
  · cases hs : i.severity with
    | none => exact Or.inr (by simp [keepIssue, getKey, hs])
    | some sv => exact Or.inl ⟨!(sv == "low"), by simp [keepIssue, getKey, hs]⟩
  · exact Or.inl ⟨true, rfl⟩

theorem filterIssues_ok (b : Bool) :
    ∀ l : List IssueDict, (∀ i ∈ l, i.severity.isSome = true) →
      ∃ l', filterIssues b l = Except.ok l' := by
  intro l
  induction l with
  | nil => exact fun _ => ⟨[], rfl⟩
  | cons j rest ih =>
    intro h
    obtain ⟨l', hl'⟩ := ih (fun i hi => h i (List.mem_cons_of_mem _ hi))
    have hsv := h j (List.mem_cons_self j rest)
    rw [Option.isSome_iff_exists] at hsv
    obtain ⟨sv, hsv⟩ := hsv
    refine ⟨if (b || !(sv == "low")) then j :: l' else l', ?_⟩
    simp only [filterIssues, keepIssue_ok b j sv hsv, hl']

theorem filterIssues_sub (b : Bool) :
    ∀ l l' : List IssueDict, filterIssues b l = Except.ok l' → ∀ i ∈ l', i ∈ l := by
  intro l
  induction l with
  | nil =>
    intro l' h i hi
    simp only [filterIssues] at h
    cases h
    simp at hi
  | cons j rest ih =>
    intro l' h i hi
    simp only [filterIssues] at h
    cases hk : keepIssue b j with
    | error e => rw [hk] at h; cases h
    | ok keep =>
      rw [hk] at h
      cases hr : filterIssues b rest with
      | error e => rw [hr] at h; cases h
      | ok rest' =>
        rw [hr] at h
        simp at h
        subst h
        by_cases hkeep : keep = true
        · subst hkeep
          simp at hi
          rcases hi with hi | hi
          · exact hi ▸ List.mem_cons_self j rest
          · exact List.mem_cons_of_mem _ (ih rest' hr i hi)
        · rw [Bool.not_eq_true] at hkeep
          subst hkeep
          simp at hi
          exact List.mem_cons_of_mem _ (ih rest' hr i hi)

theorem filterIssues_err (b : Bool) :
    ∀ l : List IssueDict,
      (∃ l', filterIssues b l = Except.ok l') ∨
        filterIssues b l = Except.error RunErr.keyError := by
  intro l
  induction l with
  | nil => exact Or.inl ⟨[], rfl⟩
  | cons j rest ih =>
    rcases keepIssue_cases b j with ⟨v, hv⟩ | hv
    · rcases ih with ⟨l', hl'⟩ | hl'
      · exact Or.inl ⟨if v then j :: l' else l', by simp only [filterIssues, hv, hl']⟩
      · exact Or.inr (by simp only [filterIssues, hv, hl'])
    · exact Or.inr (by simp only [filterIssues, hv])

theorem countSeverity_ok (s : String) :
    ∀ l : List IssueDict, (∀ i ∈ l, i.severity.isSome = true) →
      ∃ n, countSeverity s l = Except.ok n := by
  intro l
  induction l with
  | nil => exact fun _ => ⟨0, rfl⟩
  | cons j rest ih =>
    intro h
    obtain ⟨n, hn⟩ := ih (fun i hi => h i (List.mem_cons_of_mem _ hi))
    have hsv := h j (List.mem_cons_self j rest)
    rw [Option.isSome_iff_exists] at hsv
    obtain ⟨sv, hsv⟩ := hsv
    exact ⟨(if sv == s then 1 else 0) + n, by simp only [countSeverity, getKey, hsv, hn]⟩

theorem countSeverity_err (s : String) :
    ∀ l : List IssueDict,
      (∃ n, countSeverity s l = Except.ok n) ∨
        countSeverity s l = Except.error RunErr.keyError := by
  intro l
  induction l with
  | nil => exact Or.inl ⟨0, rfl⟩
  | cons j rest ih =>
    cases hs : j.severity with
    | none => exact Or.inr (by simp only [countSeverity, getKey, hs])
    | some sv =>
      rcases ih with ⟨n, hn⟩ | hn
      · exact Or.inl ⟨(if sv == s then 1 else 0) + n,
          by simp only [countSeverity, getKey, hs, hn]⟩
      · exact Or.inr (by simp only [countSeverity, getKey, hs, hn])

theorem countSeverity_zero (s : String) :
    ∀ l : List IssueDict, (∀ i ∈ l, ∃ sv, i.severity = some sv ∧ sv ≠ s) →
      countSeverity s l = Except.ok 0 := by
  intro l
  induction l with
  | nil => exact fun _ => rfl
  | cons j rest ih =>
    intro h
    obtain ⟨sv, hsv, hne⟩ := h j (List.mem_cons_self j rest)
    have hrest := ih (fun i hi => h i (List.mem_cons_of_mem _ hi))
    have hb : (sv == s) = false := by simp [hne]
    simp only [countSeverity, getKey, hsv, hrest, hb]
    rfl

theorem filterIssues_false_not_low :
    ∀ l l' : List IssueDict, filterIssues false l = Except.ok l' →
      ∀ i ∈ l', ∃ sv, i.severity = some sv ∧ sv ≠ "low" := by
  intro l
  induction l with
  | nil =>
    intro l' h i hi
    simp only [filterIssues] at h
    cases h
    simp at hi
  | cons j rest ih =>
    intro l' h i hi
    simp only [filterIssues] at h
    cases hs : j.severity with
    | none =>
      have hke : keepIssue false j = Except.error RunErr.keyError := by
        simp [keepIssue, getKey, hs]
      rw [hke] at h
      cases h
    | some sv =>
      rw [keepIssue_ok false j sv hs] at h
      cases hr : filterIssues false rest with
      | error e => rw [hr] at h; cases h
      | ok rest' =>
        rw [hr] at h
        simp at h
        subst h
        by_cases hlow : sv = "low"
        · simp [hlow] at hi
          exact ih rest' hr i hi
        · simp [hlow] at hi
          rcases hi with hi | hi
          · subst hi
            exact ⟨sv, hs, hlow⟩
          · exact ih rest' hr i hi

theorem buildIssueComment_ok (i : IssueDict) (hwf : issueWF i = true) :
    ∃ c, buildIssueComment i = Except.ok c := by
  unfold issueWF at hwf
  simp only [Bool.and_eq_true, Option.isSome_iff_exists] at hwf
  obtain ⟨⟨⟨⟨sev, hs⟩, cat, hc⟩, desc, hd⟩, sugg, hg⟩ := hwf
  refine ⟨{ raw := renderIssueComment sev cat desc sugg (i.good_practice.getD false),
            inline := if pyTruthyStr i.file && pyTruthyInt i.line then
              some (i.file.getD "", i.line.getD 0) else none }, ?_⟩
  simp only [buildIssueComment, getKey, hs, hc, hd, hg]

theorem buildIssueComment_cat_none (i : IssueDict) (h : i.category = none) :
    buildIssueComment i = Except.error RunErr.keyError := by
  cases hs : i.severity with
  | none => simp [buildIssueComment, getKey, hs]
  | some sv => simp [buildIssueComment, getKey, hs, h]

theorem postLoop_ok (env : Env) (hp : ∀ n, env.postResp n = true) :
    ∀ l : List IssueDict, (∀ i ∈ l, issueWF i = true) →
      ∀ k, (postLoop env k l).1 = Except.ok () := by
  intro l
  induction l with
  | nil => intro _ k; rfl
  | cons j rest ih =>
    intro h k
    obtain ⟨c, hc⟩ := buildIssueComment_ok j (h j (List.mem_cons_self j rest))
    have hrest := ih (fun i hi => h i (List.mem_cons_of_mem _ hi)) (k + 1)
    simp only [postLoop, hc, hp k, if_true, hrest]

theorem postLoop_cat_err (env : Env) :
    ∀ (l : List IssueDict) (i : IssueDict) (k : Nat), i ∈ l → i.category = none →
      ∃ e, (postLoop env k l).1 = Except.error e := by
  intro l
  induction l with
  | nil => intro i k hi; simp at hi
  | cons j rest ih =>
    intro i k hi hcat
    rcases List.mem_cons.mp hi with hij | hmem
    · subst hij
      refine ⟨RunErr.keyError, ?_⟩
      simp only [postLoop, buildIssueComment_cat_none i hcat]
    · cases hb : buildIssueComment j with
      | error e => exact ⟨e, by simp only [postLoop, hb]⟩
      | ok c =>
        cases hk : env.postResp k
        · exact ⟨RunErr.hostError, by simp [postLoop, hb, hk]⟩
        · obtain ⟨e, he⟩ := ih i (k + 1) hmem hcat
          exact ⟨e, by simp only [postLoop, hb, hk, if_true, he]⟩

theorem reviewWF_fields (review : ReviewDict) (hwf : reviewWF review = true) :
    ∃ s recs l, review.summary = some s ∧ review.recommendations = some recs ∧
      review.issues = some l ∧ ∀ i ∈ l, issueWF i = true := by
  unfold reviewWF at hwf
  simp only [Bool.and_eq_true, Option.isSome_iff_exists] at hwf
  obtain ⟨⟨⟨s, hs⟩, recs, hr⟩, hm⟩ := hwf
  cases hi : review.issues with
  | none => rw [hi] at hm; cases hm
  | some l =>
    rw [hi] at hm
    exact ⟨s, recs, l, hs, hr, rfl, List.all_eq_true.mp hm⟩

theorem post_prelude_ok (includeLow : Bool) (review : ReviewDict)
    (hwf : reviewWF review = true) :
    ∃ included parts, post_prelude includeLow review = Except.ok (included, parts) ∧
      ∀ i ∈ included, issueWF i = true := by
  obtain ⟨s, recs, l, hs, hr, hi, hall⟩ := reviewWF_fields review hwf
  have hsev : ∀ i ∈ l, i.severity.isSome = true := by
    intro i hmem
    have := hall i hmem
    unfold issueWF at this
    simp only [Bool.and_eq_true] at this
    exact this.1.1.1
  obtain ⟨included, hfil⟩ := filterIssues_ok includeLow l hsev
  have hsub := filterIssues_sub includeLow l included hfil
  have hsev' : ∀ i ∈ included, i.severity.isSome = true :=
    fun i hmem => hsev i (hsub i hmem)
  obtain ⟨hc, hhc⟩ := countSeverity_ok "high" included hsev'
  obtain ⟨mc, hmc⟩ := countSeverity_ok "medium" included hsev'
  obtain ⟨lc, hlc⟩ := countSeverity_ok "low" included hsev'
  refine ⟨included, ⟨s, recs, review.positive_notes.getD [], hc, mc, lc,
    !includeLow && decide (0 < lc)⟩, ?_, fun i hmem => hall i (hsub i hmem)⟩
  simp only [post_prelude, getKey, hi, hfil, hhc, hmc, hlc, hs, hr]

theorem post_comments_ok (cfg : Config) (env : Env) (review : ReviewDict)
    (hwf : reviewWF review = true) (hp : ∀ n, env.postResp n = true) :
    (post_comments cfg env review).1 = Except.ok () := by
  obtain ⟨included, parts, hpre, hall⟩ :=
    post_prelude_ok cfg.include_low_severity review hwf
  simp only [post_comments, hpre, hp 0, if_true]
  exact postLoop_ok env hp included hall 1

theorem post_prelude_recs_none (b : Bool) (review : ReviewDict)
    (h : review.recommendations = none) :
    post_prelude b review = Except.error RunErr.keyError := by
  unfold post_prelude
  cases hi : review.issues with
  | none => simp [getKey]
  | some l =>
    simp only [getKey]
    rcases filterIssues_err b l with ⟨l', hf⟩ | hf
    · simp only [hf]
      rcases countSeverity_err "high" l' with ⟨n1, h1⟩ | h1
      · simp only [h1]
        rcases countSeverity_err "medium" l' with ⟨n2, h2⟩ | h2
        · simp only [h2]
          rcases countSeverity_err "low" l' with ⟨n3, h3⟩ | h3
          · simp only [h3]
            cases hs : review.summary with
            | none => simp [getKey]
            | some s => simp [getKey, h]
          · simp only [h3]
        · simp only [h2]
      · simp only [h1]
    · simp only [hf]

/-! ### The claims -/

/-- C1: for a run that reaches the verdict step with parsed review data,
`run_review` returns false iff the number of high-severity issues in the
unfiltered issue list is positive or the number of medium-severity issues
is strictly greater than 3 (so high=0/medium=3 passes, high=0/medium=4
fails, high=1/medium=0 fails). -/
theorem C1_verdict_rule (cfg : Config) (env : Env) (ch : Changes) (review : ReviewDict)
    (issues : List IssueDict) (hc mc lc : Nat)
    (h0 : (check_existing_reviews env).1 = false)
    (h1 : (get_pr_changes env).1 = Except.ok ch)
    (h2 : (analyze_with_claude env ch).1 = Except.ok review)
    (h3 : (post_comments cfg env review).1 = Except.ok ())
    (h4 : review.issues = some issues)
    (h5 : countSeverity "high" issues = Except.ok hc)
    (h6 : countSeverity "medium" issues = Except.ok mc)
    (h7 : countSeverity "low" issues = Except.ok lc) :
    ((run_review cfg env).1 = false ↔ (0 < hc ∨ 3 < mc)) := by
  have hv : verdict_counts review = Except.ok (hc, mc) := by
    simp only [verdict_counts, getKey, h4, h5, h6, h7]
  rcases hA : check_existing_reviews env with ⟨b0, as0⟩
  rw [hA] at h0
  simp at h0
  subst h0
  rcases hB : get_pr_changes env with ⟨rB, aB⟩
  rw [hB] at h1
  simp at h1
  subst h1
  rcases hC : analyze_with_claude env ch with ⟨rC, aC⟩
  rw [hC] at h2
  simp at h2
  subst h2
  rcases hD : post_comments cfg env review with ⟨rD, aD⟩
  rw [hD] at h3
  simp at h3
  subst h3
  unfold run_review
  simp only [hA, hB, hC, hD, hv]
  simp
  omega

/-- The analyzer text used by several witnesses: the JSON of a review with
one high-severity issue, reproduced verbatim (braces by code point). -/
def rawW1 : List Char :=
  ("\x7b\"summary\": \"ok\", \"issues\": [\x7b\"file\": \"a.py\", \"line\": 10, "
    ++ "\"severity\": \"high\", \"category\": \"security\", \"description\": \"d\", "
    ++ "\"suggestion\": \"s\", \"good_practice\": false\x7d], "
    ++ "\"recommendations\": [], \"positive_notes\": []\x7d").toList

/-- The one issue of `rawW1`. -/
def issueH : IssueDict :=
  { file := some "a.py", line := some 10, severity := some "high",
    category := some "security", description := some "d",
    suggestion := some "s", good_practice := some false }

/-- The parsed form of `rawW1`. -/
def reviewW1 : ReviewDict :=
  ⟨some "ok", some [issueH], some [], some []⟩

/-- A run environment whose host calls all succeed and whose analyzer
returns `rawW1`. -/
def envW1 : Env :=
  { existingComments := some []
    authOk := true
    diffResp := some "d"
    filesResp := some [⟨"a.py"⟩]
    prResp := some ⟨some "t", some "x"⟩
    analyzerResp := some rawW1
    jsonDecode := fun s => if s = rawW1 then some reviewW1 else none
    postResp := fun _ => true }

set_option maxRecDepth 10000 in
/-- Witness for C1 at a concrete run with one high-severity issue. -/
theorem C1_verdict_rule_witness :
    ((run_review ⟨false⟩ envW1).1 = false ↔ (0 < 1 ∨ 3 < 0)) :=
  C1_verdict_rule ⟨false⟩ envW1 ⟨"d", [⟨"a.py"⟩], ⟨some "t", some "x"⟩⟩ reviewW1
    [issueH] 1 0 0 rfl rfl rfl rfl rfl rfl rfl rfl

/-- C3: when some existing comment contains the summary marker,
`run_review` returns true having performed only the comment-listing
request: no fetch, no analysis, no posting. -/
theorem C3_idempotency_short_circuit (cfg : Config) (env : Env) (cs : List String)
    (c0 : String) (hc : env.existingComments = some cs) (hm : c0 ∈ cs)
    (hmark : containsMarker c0 = true) :
    run_review cfg env = (true, [Act.listComments]) := by
  have hchk : check_existing_reviews env = (true, [Act.listComments]) := by
    unfold check_existing_reviews
    simp only [hc]
    rw [List.any_eq_true.mpr ⟨c0, hm, hmark⟩]
  unfold run_review
  rw [hchk]

/-- An environment whose PR already carries the marker comment. -/
def envW3 : Env :=
  { existingComments := some ["Claude Code Review Summary"]
    authOk := true
    diffResp := some "d"
    filesResp := some []
    prResp := some ⟨none, none⟩
    analyzerResp := none
    jsonDecode := fun _ => none
    postResp := fun _ => true }

/-- Witness for C3 at a concrete marked PR. -/
theorem C3_idempotency_short_circuit_witness :
    run_review ⟨false⟩ envW3 = (true, [Act.listComments]) :=
  C3_idempotency_short_circuit ⟨false⟩ envW3 ["Claude Code Review Summary"]
    "Claude Code Review Summary" rfl (List.mem_singleton_self _) (by decide)

/-- The analyzer text of a review with no issues at all. -/
def rawW0 : List Char :=
  ("\x7b\"summary\": \"s\", \"issues\": [], "
    ++ "\"recommendations\": [], \"positive_notes\": []\x7d").toList

/-- The parsed form of `rawW0`. -/
def reviewW0 : ReviewDict := ⟨some "s", some [], some [], some []⟩

/-- An environment where listing the existing comments fails with a host
error while everything downstream succeeds (analyzer returns `rawW0`). -/
def envC4 : Env :=
  { existingComments := none
    authOk := true
    diffResp := some "d"
    filesResp := some [⟨"a.py"⟩]
    prResp := some ⟨some "t", some "x"⟩
    analyzerResp := some rawW0
    jsonDecode := fun s => if s = rawW0 then some reviewW0 else none
    postResp := fun _ => true }

set_option maxRecDepth 10000 in
/-- Counterexample to C4 as stated: with the comment-listing request
failing, the run does NOT stop with false; it proceeds to fetch the diff,
analyze, post the summary comment, and here returns true. -/
theorem C4_counterexample :
    (run_review ⟨false⟩ envC4).1 = true ∧
    (run_review ⟨false⟩ envC4).2.countP isFetchDiff = 1 ∧
    (run_review ⟨false⟩ envC4).2.countP isPostAction = 1 := by
  refine ⟨?_, ?_, ?_⟩ <;> rfl

theorem get_pr_changes_update (env : Env) (c : Option (List String)) :
    get_pr_changes { env with existingComments := c } = get_pr_changes env := by
  cases env
  rfl

theorem analyze_update (env : Env) (c : Option (List String)) (ch : Changes) :
    analyze_with_claude { env with existingComments := c } ch =
      analyze_with_claude env ch := by
  cases env
  rfl

theorem postLoop_update (env : Env) (c : Option (List String)) :
    ∀ (l : List IssueDict) (k : Nat),
      postLoop { env with existingComments := c } k l = postLoop env k l := by
  intro l
  induction l with
  | nil => intro k; rfl
  | cons i rest ih =>
    intro k
    cases hb : buildIssueComment i with
    | error e => simp only [postLoop, hb]
    | ok cm =>
      have hpr : ({ env with existingComments := c } : Env).postResp = env.postResp := rfl
      simp only [postLoop, hb, hpr, ih (k + 1)]

theorem post_comments_update (cfg : Config) (env : Env) (c : Option (List String))
    (review : ReviewDict) :
    post_comments cfg { env with existingComments := c } review =
      post_comments cfg env review := by
  unfold post_comments
  cases hp : post_prelude cfg.include_low_severity review with
  | error e => rfl
  | ok ip =>
    rcases ip with ⟨included, parts⟩
    have hpr : ({ env with existingComments := c } : Env).postResp = env.postResp := rfl
    simp only [hp, hpr, postLoop_update env c included 1]

/-- C4 amended: a host error while listing the existing comments is
caught inside `check_existing_reviews` (with a warning) and treated
exactly like an empty comment list — the run proceeds; it is not fatal. -/
theorem C4_amended_listing_failure_nonfatal (cfg : Config) (env : Env) :
    run_review cfg { env with existingComments := none } =
      run_review cfg { env with existingComments := some [] } := by
  have h1 : check_existing_reviews { env with existingComments := none } =
      (false, [Act.listComments]) := rfl
  have h2 : check_existing_reviews { env with existingComments := some [] } =
      (false, [Act.listComments]) := rfl
  unfold run_review
  simp only [h1, h2, get_pr_changes_update, analyze_update, post_comments_update]

/-- C5: when the analyzer responds but its text (after fence stripping)
is not parseable JSON, `run_review` returns false and posts no comment
of any kind. -/
theorem C5_malformed_payload (cfg : Config) (env : Env) (ch : Changes) (raw : List Char)
    (h0 : (check_existing_reviews env).1 = false)
    (h1 : (get_pr_changes env).1 = Except.ok ch)
    (h2 : env.analyzerResp = some raw)
    (h3 : env.jsonDecode (cleanResponse raw) = none) :
    (run_review cfg env).1 = false ∧
      (run_review cfg env).2.countP isPostAction = 0 := by
  have hA : analyze_with_claude env ch = (Except.error RunErr.parseError, [Act.analyze]) := by
    simp only [analyze_with_claude, h2, h3]
  rcases hE : check_existing_reviews env with ⟨b0, as0⟩
  have hsnd := check_existing_snd env
  rw [hE] at h0 hsnd
  simp at h0 hsnd
  subst h0
  subst hsnd
  rcases hG : get_pr_changes env with ⟨rG, aG⟩
  have hGc := get_pr_changes_no_post env
  rw [hG] at h1 hGc
  simp at h1
  subst h1
  have hGc' : aG.countP isPostAction = 0 := hGc
  unfold run_review
  simp only [hE, hG, hA]
  refine ⟨trivial, ?_⟩
  simp [List.countP_append, List.countP_cons, isPostAction, hGc']

/-- An environment whose analyzer returns the raw text `"not json"`. -/
def envW5 : Env :=
  { existingComments := some []
    authOk := true
    diffResp := some "d"
    filesResp := some [⟨"a.py"⟩]
    prResp := some ⟨some "t", some "x"⟩
    analyzerResp := some ("not json".toList)
    jsonDecode := fun _ => none
    postResp := fun _ => true }

/-- Witness for C5 at the spec's concrete `"not json"` response. -/
theorem C5_malformed_payload_witness :
    (run_review ⟨false⟩ envW5).1 = false ∧
      (run_review ⟨false⟩ envW5).2.countP isPostAction = 0 :=
  C5_malformed_payload ⟨false⟩ envW5 ⟨"d", [⟨"a.py"⟩], ⟨some "t", some "x"⟩⟩
    ("not json".toList) rfl rfl rfl rfl

/-- C10: with low-severity publication disabled, the severity tallies
rendered into the summary comment are computed over the filtered issue
list, so the displayed low-severity count is 0 and the hidden-note line
is never included, however many low-severity issues were reported. -/
theorem C10_summary_counts_filtered (review : ReviewDict)
    (included : List IssueDict) (parts : SummaryParts)
    (h : post_prelude false review = Except.ok (included, parts)) :
    parts.low_count = 0 ∧ parts.hiddenNote = false := by
  unfold post_prelude at h
  cases hi : review.issues with
  | none => rw [hi] at h; simp [getKey] at h
  | some l =>
    rw [hi] at h
    simp only [getKey] at h
    cases hf : filterIssues false l with
    | error e => simp [hf] at h
    | ok l' =>
      simp only [hf] at h
      have hcz : countSeverity "low" l' = Except.ok 0 :=
        countSeverity_zero "low" l' (filterIssues_false_not_low l l' hf)
      cases h1 : countSeverity "high" l' with
      | error e => simp [h1] at h
      | ok hcv =>
        simp only [h1] at h
        cases h2 : countSeverity "medium" l' with
        | error e => simp [h2] at h
        | ok mcv =>
          simp only [h2, hcz] at h
          cases hs : review.summary with
          | none => simp [hs, getKey] at h
          | some s =>
            simp only [hs, getKey] at h
            cases hr : review.recommendations with
            | none => simp [hr, getKey] at h
            | some recs =>
              simp only [hr, getKey, Except.ok.injEq, Prod.mk.injEq] at h
              obtain ⟨-, hparts⟩ := h
              rw [← hparts]
              exact ⟨rfl, rfl⟩

/-- A review whose only issue is low-severity. -/
def issueL : IssueDict :=
  { severity := some "low", category := some "quality",
    description := some "d", suggestion := some "s" }

/-- A payload with one low-severity issue. -/
def reviewW10 : ReviewDict := ⟨some "s", some [issueL], some [], some []⟩

/-- Witness for C10: the parts computed for `reviewW10` with low-severity
publication disabled. -/
theorem C10_summary_counts_filtered_witness :
    (⟨"s", [], [], 0, 0, 0, false⟩ : SummaryParts).low_count = 0 ∧
    (⟨"s", [], [], 0, 0, 0, false⟩ : SummaryParts).hiddenNote = false :=
  C10_summary_counts_filtered reviewW10 [] ⟨"s", [], [], 0, 0, 0, false⟩ rfl

/-- The analyzer text of a payload lacking the `recommendations` key. -/
def rawC6 : List Char :=
  ("\x7b\"summary\": \"s\", \"issues\": [], \"positive_notes\": []\x7d").toList

/-- The parsed form of `rawC6`: no `recommendations` key. -/
def reviewC6 : ReviewDict := ⟨some "s", some [], none, some []⟩

/-- An otherwise fully successful environment whose analyzer returns
`rawC6`. -/
def envC6 : Env :=
  { existingComments := some []
    authOk := true
    diffResp := some "d"
    filesResp := some [⟨"a.py"⟩]
    prResp := some ⟨some "t", some "x"⟩
    analyzerResp := some rawC6
    jsonDecode := fun s => if s = rawC6 then some reviewC6 else none
    postResp := fun _ => true }

set_option maxRecDepth 10000 in
/-- Counterexample to C6 as stated: a well-formed payload lacking only
`recommendations` is not defaulted to an empty sequence; the run fails
(returns false) and no comment, not even the summary, is posted. -/
theorem C6_counterexample :
    (run_review ⟨false⟩ envC6).1 = false ∧
    (run_review ⟨false⟩ envC6).2.countP isPostAction = 0 := by
  refine ⟨?_, ?_⟩ <;> rfl

/-- C6 amended: for every payload, a missing `positive_notes` defaults to
the empty list — posting behaves exactly as for an explicit empty list —
while a missing `recommendations` raises a `KeyError` that aborts
`post_comments` before anything is posted, failing the run. -/
theorem C6_amended_optional_fields (cfg : Config) (env : Env) (review : ReviewDict)
    (h : review.recommendations = none) :
    post_comments cfg env review = (Except.error RunErr.keyError, []) ∧
    (∀ r : ReviewDict, post_comments cfg env { r with positive_notes := none } =
      post_comments cfg env { r with positive_notes := some [] }) := by
  constructor
  · unfold post_comments
    simp only [post_prelude_recs_none cfg.include_low_severity review h]
  · intro r
    have hpre : post_prelude cfg.include_low_severity
        { r with positive_notes := none } =
          post_prelude cfg.include_low_severity
            { r with positive_notes := some [] } := by
      cases r
      rfl
    unfold post_comments
    rw [hpre]

/-- Witness for C6 (amended): the abort at the concrete `reviewC6`, and
the `positive_notes` defaulting at the fully well-formed `reviewW0`,
whose runs post the summary, so the default is observable. -/
theorem C6_amended_optional_fields_witness :
    post_comments ⟨false⟩ envC6 reviewC6 = (Except.error RunErr.keyError, []) ∧
    post_comments ⟨false⟩ envC6 { reviewW0 with positive_notes := none } =
      post_comments ⟨false⟩ envC6 { reviewW0 with positive_notes := some [] } := by
  have h := C6_amended_optional_fields ⟨false⟩ envC6 reviewC6 rfl
  exact ⟨h.1, h.2 reviewW0⟩

/-- A medium-severity issue lacking the `category` key. -/
def issueM : IssueDict :=
  { severity := some "medium", description := some "d", suggestion := some "s" }

/-- A payload whose single issue lacks `category` (medium severity, so
the verdict rule alone would pass the run). -/
def reviewC7 : ReviewDict := ⟨some "s", some [issueM], some [], some []⟩

/-- The analyzer text of `reviewC7`. -/
def rawC7 : List Char :=
  ("\x7b\"summary\": \"s\", \"issues\": [\x7b\"severity\": \"medium\", "
    ++ "\"description\": \"d\", \"suggestion\": \"s\"\x7d], "
    ++ "\"recommendations\": [], \"positive_notes\": []\x7d").toList

/-- An otherwise fully successful environment whose analyzer returns
`rawC7`. -/
def envC7 : Env :=
  { existingComments := some []
    authOk := true
    diffResp := some "d"
    filesResp := some [⟨"a.py"⟩]
    prResp := some ⟨some "t", some "x"⟩
    analyzerResp := some rawC7
    jsonDecode := fun s => if s = rawC7 then some reviewC7 else none
    postResp := fun _ => true }

set_option maxRecDepth 10000 in
/-- Counterexample to C7 as stated: the missing `category` is not
defaulted to "uncategorized"; the whole run returns false (though by the
verdict rule it would pass) and only the summary comment is posted. -/
theorem C7_counterexample :
    (run_review ⟨false⟩ envC7).1 = false ∧
    (run_review ⟨false⟩ envC7).2.countP isPostAction = 1 := by
  refine ⟨?_, ?_⟩ <;> rfl

/-- C7 amended: a missing `good_practice` defaults to false (building the
comment is identical to an explicit false), but a missing `category` on
any issue surviving the severity filter raises a `KeyError` that aborts
posting and fails the whole run. -/
theorem C7_amended_issue_fields (cfg : Config) (env : Env) (review : ReviewDict)
    (included : List IssueDict) (parts : SummaryParts) (i : IssueDict)
    (h1 : post_prelude cfg.include_low_severity review = Except.ok (included, parts))
    (h2 : i ∈ included) (h3 : i.category = none) :
    (∃ e, (post_comments cfg env review).1 = Except.error e) ∧
    (∀ j : IssueDict, buildIssueComment { j with good_practice := none } =
      buildIssueComment { j with good_practice := some false }) := by
  constructor
  · unfold post_comments
    simp only [h1]
    cases hp : env.postResp 0 with
    | false => exact ⟨RunErr.hostError, by simp [hp]⟩
    | true =>
      obtain ⟨e, he⟩ := postLoop_cat_err env included i 1 h2 h3
      exact ⟨e, by simp [hp, he]⟩
  · intro j
    cases j
    rfl

/-- Witness for C7 (amended) at the concrete `reviewC7`. -/
theorem C7_amended_issue_fields_witness :
    (∃ e, (post_comments ⟨false⟩ envC7 reviewC7).1 = Except.error e) ∧
    buildIssueComment { issueM with good_practice := none } =
      buildIssueComment { issueM with good_practice := some false } := by
  have h := C7_amended_issue_fields ⟨false⟩ envC7 reviewC7 [issueM]
    ⟨"s", [], [], 0, 1, 0, false⟩ issueM rfl (List.mem_singleton_self _) rfl
  exact ⟨h.1, h.2 issueM⟩

/-- An issue whose `file` and `line` keys are both present, but with
`line` equal to 0, which Python's truthiness test treats as absent. -/
def issueZ : IssueDict :=
  { file := some "a.py", line := some 0, severity := some "high",
    category := some "security", description := some "d", suggestion := some "s" }

/-- Counterexample to C9 as stated: both `file` and `line` are present on
`issueZ`, yet the built comment carries no inline anchor (because
`line = 0` is falsy under `issue.get('file') and issue.get('line')`). -/
theorem C9_counterexample :
    issueZ.file.isSome = true ∧ issueZ.line.isSome = true ∧
    (buildIssueComment issueZ).map Comment.inline = Except.ok none := by
  refine ⟨?_, ?_, ?_⟩ <;> rfl

/-- C9 amended: for a successfully built issue comment, the inline anchor
is attached iff both `file` and `line` are present AND truthy (non-empty
string, non-zero number); when attached, the anchor is exactly the
issue's own file and line — never a fabricated location. -/
theorem C9_amended_inline_anchor (i : IssueDict) (c : Comment)
    (h : buildIssueComment i = Except.ok c) :
    c.inline.isSome = (pyTruthyStr i.file && pyTruthyInt i.line) ∧
    (∀ f n, c.inline = some (f, n) → i.file = some f ∧ i.line = some n) := by
  have hin : c.inline = (if pyTruthyStr i.file && pyTruthyInt i.line then
      some (i.file.getD "", i.line.getD 0) else none) := by
    unfold buildIssueComment at h
    cases hs : i.severity with
    | none => simp [getKey, hs] at h
    | some sev =>
      simp only [getKey, hs] at h
      cases hc2 : i.category with
      | none => simp [hc2] at h
      | some cat =>
        simp only [hc2] at h
        cases hd : i.description with
        | none => simp [hd] at h
        | some desc =>
          simp only [hd] at h
          cases hg : i.suggestion with
          | none => simp [hg] at h
          | some sugg =>
            simp only [hg, Except.ok.injEq] at h
            rw [← h]
  constructor
  · rw [hin]
    cases htr : pyTruthyStr i.file && pyTruthyInt i.line <;> simp [htr]
  · intro f n hfn
    rw [hin] at hfn
    cases htr : pyTruthyStr i.file && pyTruthyInt i.line
    · rw [htr] at hfn
      simp at hfn
    · rw [htr] at hfn
      simp at hfn
      rw [Bool.and_eq_true] at htr
      obtain ⟨htf, htl⟩ := htr
      cases hfile : i.file with
      | none => rw [hfile] at htf; simp [pyTruthyStr] at htf
      | some fs =>
        cases hline : i.line with
        | none => rw [hline] at htl; simp [pyTruthyInt] at htl
        | some ln =>
          rw [hfile, hline] at hfn
          simp at hfn
          obtain ⟨hf1, hn1⟩ := hfn
          exact ⟨congrArg some hf1, congrArg some hn1⟩

/-- The comment built for `issueH` (anchored at a.py line 10). -/
def commentH : Comment :=
  { raw := renderIssueComment "high" "security" "d" "s" false
    inline := some ("a.py", 10) }

/-- Witness for C9 (amended) at the concrete `issueH`. -/
theorem C9_amended_inline_anchor_witness :
    commentH.inline.isSome = (pyTruthyStr issueH.file && pyTruthyInt issueH.line) ∧
    (∀ f n, commentH.inline = some (f, n) →
      issueH.file = some f ∧ issueH.line = some n) :=
  C9_amended_inline_anchor issueH commentH rfl

/-- C2: the verdict tallies are taken from the unfiltered issue list, so
for any run whose analyzer payload is a well-formed `ReviewResult` (all
required keys present) against a host accepting every post, enabling vs
disabling `include_low_severity` yields the same verdict; only the set of
published low-severity comments can differ. -/
theorem C2_filtering_independence (env : Env)
    (hdec : ∀ s r, env.jsonDecode s = some r → reviewWF r = true)
    (hpost : ∀ n, env.postResp n = true) :
    (run_review ⟨true⟩ env).1 = (run_review ⟨false⟩ env).1 := by
  rcases hA : check_existing_reviews env with ⟨b0, as0⟩
  cases b0 with
  | true =>
    unfold run_review
    simp only [hA]
  | false =>
    rcases hB : get_pr_changes env with ⟨rB, aB⟩
    cases rB with
    | error e =>
      unfold run_review
      simp only [hA, hB]
    | ok ch =>
      rcases hC : analyze_with_claude env ch with ⟨rC, aC⟩
      cases rC with
      | error e =>
        unfold run_review
        simp only [hA, hB, hC]
      | ok review =>
        have hwf : reviewWF review = true := by
          unfold analyze_with_claude at hC
          cases hR : env.analyzerResp with
          | none => simp only [hR] at hC; simp at hC
          | some raw =>
            simp only [hR] at hC
            cases hD : env.jsonDecode (cleanResponse raw) with
            | none => simp only [hD] at hC; simp at hC
            | some r =>
              simp only [hD, Prod.mk.injEq, Except.ok.injEq] at hC
              obtain ⟨h1', -⟩ := hC
              exact h1' ▸ hdec _ _ hD
        have hp1 : (post_comments ⟨true⟩ env review).1 = Except.ok () :=
          post_comments_ok ⟨true⟩ env review hwf hpost
        have hp2 : (post_comments ⟨false⟩ env review).1 = Except.ok () :=
          post_comments_ok ⟨false⟩ env review hwf hpost
        rcases hD1 : post_comments ⟨true⟩ env review with ⟨r1, c1⟩
        rcases hD2 : post_comments ⟨false⟩ env review with ⟨r2, c2⟩
        rw [hD1] at hp1
        rw [hD2] at hp2
        simp at hp1 hp2
        subst hp1
        subst hp2
        unfold run_review
        simp only [hA, hB, hC, hD1, hD2]
        cases verdict_counts review with
        | error e => rfl
        | ok pair =>
          rcases pair with ⟨hcv, mcv⟩
          rfl

/-- The analyzer text of a payload with one low-severity issue. -/
def rawW10 : List Char :=
  ("\x7b\"summary\": \"s\", \"issues\": [\x7b\"severity\": \"low\", "
    ++ "\"category\": \"quality\", \"description\": \"d\", \"suggestion\": \"s\"\x7d], "
    ++ "\"recommendations\": [], \"positive_notes\": []\x7d").toList

/-- A fully successful environment whose analyzer reports one
low-severity issue (`reviewW10`). -/
def envW2 : Env :=
  { existingComments := some []
    authOk := true
    diffResp := some "d"
    filesResp := some [⟨"a.py"⟩]
    prResp := some ⟨some "t", some "x"⟩
    analyzerResp := some rawW10
    jsonDecode := fun s => if s = rawW10 then some reviewW10 else none
    postResp := fun _ => true }

set_option maxRecDepth 10000 in
/-- Witness for C2 at a concrete run with one low-severity issue. -/
theorem C2_filtering_independence_witness :
    (run_review ⟨true⟩ envW2).1 = (run_review ⟨false⟩ envW2).1 :=
  C2_filtering_independence envW2
    (by
      intro s r h
      simp only [envW2] at h
      split at h
      · injection h with h'
        rw [← h']
        decide
      · exact Option.noConfusion h)
    (fun _ => rfl)

/-! ### String lemmas for the fence-stripping claim -/

theorem sp_tick : isPySpace tick = false := by decide

theorem sp_lbrace : isPySpace '\x7b' = false := by decide

theorem sp_rbrace : isPySpace '\x7d' = false := by decide

theorem sp_nl : isPySpace '\n' = true := by decide

theorem beq_tick_lbrace : (tick == '\x7b') = false := by decide

theorem beq_tick_rbrace : (tick == '\x7d') = false := by decide

theorem beq_tick_nl : (tick == '\n') = false := by decide

theorem beq_j_nl : (('j' : Char) == '\n') = false := by decide

theorem fence3_reverse : fence3.reverse = fence3 := by decide

theorem dropWhile_append_all :
    ∀ ws : List Char, (∀ c ∈ ws, isPySpace c = true) →
      ∀ l : List Char, (ws ++ l).dropWhile isPySpace = l.dropWhile isPySpace
  | [], _, l => rfl
  | a :: t, h, l => by
    have ha : isPySpace a = true := h a (List.mem_cons_self a t)
    have ih := dropWhile_append_all t (fun c hc => h c (List.mem_cons_of_mem a hc)) l
    simp only [List.cons_append, List.dropWhile_cons, ha, if_true, ih]

theorem dropWhile_cons_neg (a : Char) (l : List Char) (h : isPySpace a = false) :
    (a :: l).dropWhile isPySpace = a :: l := by
  simp [List.dropWhile_cons, h]

theorem stripLeft_append_ws (ws l : List Char) (h : ∀ c ∈ ws, isPySpace c = true) :
    stripLeft (ws ++ l) = stripLeft l := dropWhile_append_all ws h l

theorem stripLeft_cons_neg (a : Char) (l : List Char) (h : isPySpace a = false) :
    stripLeft (a :: l) = a :: l := dropWhile_cons_neg a l h

theorem stripRight_append_ws (l ws : List Char) (h : ∀ c ∈ ws, isPySpace c = true) :
    stripRight (l ++ ws) = stripRight l := by
  unfold stripRight
  rw [List.reverse_append,
    dropWhile_append_all ws.reverse (fun c hc => h c (List.mem_reverse.mp hc)) l.reverse]

theorem stripRight_concat_neg (l : List Char) (a : Char) (h : isPySpace a = false) :
    stripRight (l ++ [a]) = l ++ [a] := by
  unfold stripRight
  rw [show (l ++ [a]).reverse = a :: l.reverse by simp]
  rw [dropWhile_cons_neg a l.reverse h]
  simp

theorem pyStrip_sandwich (a b : Char) (mid wsl wsr : List Char)
    (hl : ∀ c ∈ wsl, isPySpace c = true) (hr : ∀ c ∈ wsr, isPySpace c = true)
    (ha : isPySpace a = false) (hb : isPySpace b = false) :
    pyStrip (wsl ++ (a :: (mid ++ [b])) ++ wsr) = a :: (mid ++ [b]) := by
  unfold pyStrip
  have h1 : stripLeft (wsl ++ (a :: (mid ++ [b])) ++ wsr) = (a :: (mid ++ [b])) ++ wsr := by
    rw [List.append_assoc, stripLeft_append_ws wsl _ hl, List.cons_append,
      stripLeft_cons_neg a _ ha]
  rw [h1, stripRight_append_ws _ wsr hr,
    show a :: (mid ++ [b]) = (a :: mid) ++ [b] by simp]
  exact stripRight_concat_neg (a :: mid) b hb

theorem pyStrip_fix (a b : Char) (mid : List Char)
    (ha : isPySpace a = false) (hb : isPySpace b = false) :
    pyStrip (a :: (mid ++ [b])) = a :: (mid ++ [b]) := by
  have h := pyStrip_sandwich a b mid [] [] (by simp) (by simp) ha hb
  simpa using h

theorem pyStrip_decomp (p : List Char) :
    ∃ wsl wsr, (∀ c ∈ wsl, isPySpace c = true) ∧ (∀ c ∈ wsr, isPySpace c = true) ∧
      p = wsl ++ pyStrip p ++ wsr := by
  refine ⟨p.takeWhile isPySpace, ((stripLeft p).reverse.takeWhile isPySpace).reverse,
    fun c hc => List.mem_takeWhile_imp hc,
    fun c hc => List.mem_takeWhile_imp (List.mem_reverse.mp hc), ?_⟩
  have h2 : pyStrip p ++ ((stripLeft p).reverse.takeWhile isPySpace).reverse
      = stripLeft p := by
    unfold pyStrip stripRight
    rw [← List.reverse_append, List.takeWhile_append_dropWhile, List.reverse_reverse]
  rw [List.append_assoc, h2]
  exact (List.takeWhile_append_dropWhile isPySpace p).symm

theorem head_getLast_decomp (q : List Char)
    (hh : q.head? = some '\x7b') (hl : q.getLast? = some '\x7d') :
    ∃ mid, q = '\x7b' :: (mid ++ ['\x7d']) := by
  rcases List.eq_nil_or_concat q with rfl | ⟨L, b, hq⟩
  · cases hh
  · rw [List.concat_eq_append] at hq
    subst hq
    rw [List.getLast?_concat] at hl
    have hb : b = '\x7d' := by injection hl
    subst hb
    cases L with
    | nil =>
      simp at hh
    | cons a L2 =>
      rw [List.cons_append, List.head?_cons] at hh
      have ha : a = '\x7b' := by injection hh
      subst ha
      exact ⟨L2, by simp⟩

theorem isPrefixOf_append_self :
    ∀ l₁ l₂ : List Char, l₁.isPrefixOf (l₁ ++ l₂) = true
  | [], _ => by simp [List.isPrefixOf]
  | a :: t, l₂ => by
    simp [List.isPrefixOf, isPrefixOf_append_self t l₂]

theorem isSuffixOf_append_self (l₁ l₂ : List Char) :
    l₂.isSuffixOf (l₁ ++ l₂) = true := by
  simp only [List.isSuffixOf, List.reverse_append]
  exact isPrefixOf_append_self l₂.reverse l₁.reverse

theorem cleanResponse_via (t u v w x : List Char)
    (h1 : pyStrip t = u)
    (h2 : (if fenceJson.isPrefixOf u then u.drop 7 else u) = v)
    (h3 : (if fence3.isPrefixOf v then v.drop 3 else v) = w)
    (h4 : (if fence3.isSuffixOf w then pyDropLast 3 w else w) = x) :
    cleanResponse t = pyStrip x := by
  unfold cleanResponse
  dsimp only
  rw [h1, h2, h3, h4]

theorem cleanResponse_json_text (mid wsl wsr : List Char)
    (hl : ∀ c ∈ wsl, isPySpace c = true) (hr : ∀ c ∈ wsr, isPySpace c = true) :
    cleanResponse (wsl ++ ('\x7b' :: (mid ++ ['\x7d'])) ++ wsr) =
      '\x7b' :: (mid ++ ['\x7d']) := by
  have h1 : pyStrip (wsl ++ ('\x7b' :: (mid ++ ['\x7d'])) ++ wsr) =
      '\x7b' :: (mid ++ ['\x7d']) :=
    pyStrip_sandwich '\x7b' '\x7d' mid wsl wsr hl hr sp_lbrace sp_rbrace
  have h2 : fenceJson.isPrefixOf ('\x7b' :: (mid ++ ['\x7d'])) = false := by
    simp [fenceJson, fence3, List.isPrefixOf, beq_tick_lbrace]
  have h3 : fence3.isPrefixOf ('\x7b' :: (mid ++ ['\x7d'])) = false := by
    simp [fence3, List.isPrefixOf, beq_tick_lbrace]
  have h4 : fence3.isSuffixOf ('\x7b' :: (mid ++ ['\x7d'])) = false := by
    simp only [List.isSuffixOf, fence3_reverse, List.reverse_cons, List.reverse_append,
      List.reverse_nil, List.nil_append, List.singleton_append]
    simp [fence3, List.isPrefixOf, beq_tick_rbrace]
  have h5 : pyStrip ('\x7b' :: (mid ++ ['\x7d'])) = '\x7b' :: (mid ++ ['\x7d']) :=
    pyStrip_fix '\x7b' '\x7d' mid sp_lbrace sp_rbrace
  have hmain := cleanResponse_via (wsl ++ ('\x7b' :: (mid ++ ['\x7d'])) ++ wsr)
    ('\x7b' :: (mid ++ ['\x7d'])) ('\x7b' :: (mid ++ ['\x7d']))
    ('\x7b' :: (mid ++ ['\x7d'])) ('\x7b' :: (mid ++ ['\x7d'])) h1
    (by rw [h2]; exact if_neg Bool.false_ne_true)
    (by rw [h3]; exact if_neg Bool.false_ne_true)
    (by rw [h4]; exact if_neg Bool.false_ne_true)
  rw [hmain, h5]

theorem pyDropLast3_append (A : List Char) : pyDropLast 3 (A ++ fence3) = A := by
  unfold pyDropLast
  rw [List.length_append]
  have h3 : A.length + fence3.length - 3 = A.length := by simp [fence3]
  rw [h3]
  exact List.take_left A fence3

theorem step_nl_keep (Y : List Char) :
    (if fence3.isPrefixOf ('\n' :: Y) then ('\n' :: Y).drop 3 else ('\n' :: Y)) =
      '\n' :: Y := by
  have h : fence3.isPrefixOf ('\n' :: Y) = false := by
    simp [fence3, List.isPrefixOf, beq_tick_nl]
  rw [h]
  exact if_neg Bool.false_ne_true

theorem step_suffix (P : List Char) :
    (if fence3.isSuffixOf ('\n' :: (P ++ ('\n' :: fence3))) then
        pyDropLast 3 ('\n' :: (P ++ ('\n' :: fence3)))
      else ('\n' :: (P ++ ('\n' :: fence3)))) = '\n' :: (P ++ ['\n']) := by
  have hXA : '\n' :: (P ++ ('\n' :: fence3)) = ('\n' :: (P ++ ['\n'])) ++ fence3 := by
    simp [List.append_assoc]
  rw [hXA, isSuffixOf_append_self, if_pos rfl]
  exact pyDropLast3_append _

theorem final_strip (mid wsl wsr : List Char)
    (hl : ∀ c ∈ wsl, isPySpace c = true) (hr : ∀ c ∈ wsr, isPySpace c = true) :
    pyStrip ('\n' :: ((wsl ++ ('\x7b' :: (mid ++ ['\x7d'])) ++ wsr) ++ ['\n'])) =
      '\x7b' :: (mid ++ ['\x7d']) := by
  have he : '\n' :: ((wsl ++ ('\x7b' :: (mid ++ ['\x7d'])) ++ wsr) ++ ['\n']) =
      ('\n' :: wsl) ++ ('\x7b' :: (mid ++ ['\x7d'])) ++ (wsr ++ ['\n']) := by
    simp [List.append_assoc]
  rw [he]
  exact pyStrip_sandwich '\x7b' '\x7d' mid ('\n' :: wsl) (wsr ++ ['\n'])
    (fun c hc => by
      rcases List.mem_cons.mp hc with rfl | hc2
      · exact sp_nl
      · exact hl c hc2)
    (fun c hc => by
      rcases List.mem_append.mp hc with hc2 | hc2
      · exact hr c hc2
      · rw [List.mem_singleton.mp hc2]
        exact sp_nl)
    sp_lbrace sp_rbrace

theorem cleanResponse_wrapTag (mid wsl wsr ws1 ws2 : List Char)
    (h1 : ∀ c ∈ ws1, isPySpace c = true) (h2 : ∀ c ∈ ws2, isPySpace c = true)
    (hl : ∀ c ∈ wsl, isPySpace c = true) (hr : ∀ c ∈ wsr, isPySpace c = true) :
    cleanResponse (wrapTag ws1 (wsl ++ ('\x7b' :: (mid ++ ['\x7d'])) ++ wsr) ws2) =
      '\x7b' :: (mid ++ ['\x7d']) := by
  have hM : wrapTag ws1 (wsl ++ ('\x7b' :: (mid ++ ['\x7d'])) ++ wsr) ws2 =
      ws1 ++ (tick :: (([tick, tick, 'j', 's', 'o', 'n', '\n'] ++
        ((wsl ++ ('\x7b' :: (mid ++ ['\x7d'])) ++ wsr) ++ ('\n' :: [tick, tick])))
          ++ [tick])) ++ ws2 := by
    simp [wrapTag, fenceJson, fence3, List.append_assoc]
  have hstrip : pyStrip (wrapTag ws1 (wsl ++ ('\x7b' :: (mid ++ ['\x7d'])) ++ wsr) ws2) =
      fenceJson ++ ('\n' :: ((wsl ++ ('\x7b' :: (mid ++ ['\x7d'])) ++ wsr)
        ++ ('\n' :: fence3))) := by
    rw [hM, pyStrip_sandwich tick tick _ ws1 ws2 h1 h2 sp_tick sp_tick]
    simp [fenceJson, fence3, List.append_assoc]
  have hstep2 : (if fenceJson.isPrefixOf (fenceJson ++ ('\n' ::
        ((wsl ++ ('\x7b' :: (mid ++ ['\x7d'])) ++ wsr) ++ ('\n' :: fence3)))) then
      (fenceJson ++ ('\n' :: ((wsl ++ ('\x7b' :: (mid ++ ['\x7d'])) ++ wsr)
        ++ ('\n' :: fence3)))).drop 7
    else (fenceJson ++ ('\n' :: ((wsl ++ ('\x7b' :: (mid ++ ['\x7d'])) ++ wsr)
        ++ ('\n' :: fence3))))) =
      '\n' :: ((wsl ++ ('\x7b' :: (mid ++ ['\x7d'])) ++ wsr) ++ ('\n' :: fence3)) := by
    rw [isPrefixOf_append_self, if_pos rfl, show (7 : Nat) = fenceJson.length from rfl]
    exact List.drop_left _ _
  have hmain := cleanResponse_via _
    (fenceJson ++ ('\n' :: ((wsl ++ ('\x7b' :: (mid ++ ['\x7d'])) ++ wsr)
      ++ ('\n' :: fence3))))
    ('\n' :: ((wsl ++ ('\x7b' :: (mid ++ ['\x7d'])) ++ wsr) ++ ('\n' :: fence3)))
    ('\n' :: ((wsl ++ ('\x7b' :: (mid ++ ['\x7d'])) ++ wsr) ++ ('\n' :: fence3)))
    ('\n' :: ((wsl ++ ('\x7b' :: (mid ++ ['\x7d'])) ++ wsr) ++ ['\n']))
    hstrip hstep2 (step_nl_keep _) (step_suffix _)
  rw [hmain]
  exact final_strip mid wsl wsr hl hr

theorem cleanResponse_wrapPlain (mid wsl wsr ws1 ws2 : List Char)
    (h1 : ∀ c ∈ ws1, isPySpace c = true) (h2 : ∀ c ∈ ws2, isPySpace c = true)
    (hl : ∀ c ∈ wsl, isPySpace c = true) (hr : ∀ c ∈ wsr, isPySpace c = true) :
    cleanResponse (wrapPlain ws1 (wsl ++ ('\x7b' :: (mid ++ ['\x7d'])) ++ wsr) ws2) =
      '\x7b' :: (mid ++ ['\x7d']) := by
  have hM : wrapPlain ws1 (wsl ++ ('\x7b' :: (mid ++ ['\x7d'])) ++ wsr) ws2 =
      ws1 ++ (tick :: (([tick, tick, '\n'] ++
        ((wsl ++ ('\x7b' :: (mid ++ ['\x7d'])) ++ wsr) ++ ('\n' :: [tick, tick])))
          ++ [tick])) ++ ws2 := by
    simp [wrapPlain, fence3, List.append_assoc]
  have hstrip : pyStrip (wrapPlain ws1 (wsl ++ ('\x7b' :: (mid ++ ['\x7d'])) ++ wsr) ws2) =
      fence3 ++ ('\n' :: ((wsl ++ ('\x7b' :: (mid ++ ['\x7d'])) ++ wsr)
        ++ ('\n' :: fence3))) := by
    rw [hM, pyStrip_sandwich tick tick _ ws1 ws2 h1 h2 sp_tick sp_tick]
    simp [fence3, List.append_assoc]
  have hstep2 : (if fenceJson.isPrefixOf (fence3 ++ ('\n' ::
        ((wsl ++ ('\x7b' :: (mid ++ ['\x7d'])) ++ wsr) ++ ('\n' :: fence3)))) then
      (fence3 ++ ('\n' :: ((wsl ++ ('\x7b' :: (mid ++ ['\x7d'])) ++ wsr)
        ++ ('\n' :: fence3)))).drop 7
    else (fence3 ++ ('\n' :: ((wsl ++ ('\x7b' :: (mid ++ ['\x7d'])) ++ wsr)
        ++ ('\n' :: fence3))))) =
      fence3 ++ ('\n' :: ((wsl ++ ('\x7b' :: (mid ++ ['\x7d'])) ++ wsr)
        ++ ('\n' :: fence3))) := by
    have hp : fenceJson.isPrefixOf (fence3 ++ ('\n' ::
        ((wsl ++ ('\x7b' :: (mid ++ ['\x7d'])) ++ wsr) ++ ('\n' :: fence3)))) = false := by
      simp [fenceJson, fence3, List.isPrefixOf, beq_j_nl]
    rw [hp]
    exact if_neg Bool.false_ne_true
  have hstep3 : (if fence3.isPrefixOf (fence3 ++ ('\n' ::
        ((wsl ++ ('\x7b' :: (mid ++ ['\x7d'])) ++ wsr) ++ ('\n' :: fence3)))) then
      (fence3 ++ ('\n' :: ((wsl ++ ('\x7b' :: (mid ++ ['\x7d'])) ++ wsr)
        ++ ('\n' :: fence3)))).drop 3
    else (fence3 ++ ('\n' :: ((wsl ++ ('\x7b' :: (mid ++ ['\x7d'])) ++ wsr)
        ++ ('\n' :: fence3))))) =
      '\n' :: ((wsl ++ ('\x7b' :: (mid ++ ['\x7d'])) ++ wsr) ++ ('\n' :: fence3)) := by
    rw [isPrefixOf_append_self, if_pos rfl, show (3 : Nat) = fence3.length from rfl]
    exact List.drop_left _ _
  have hmain := cleanResponse_via _
    (fence3 ++ ('\n' :: ((wsl ++ ('\x7b' :: (mid ++ ['\x7d'])) ++ wsr)
      ++ ('\n' :: fence3))))
    (fence3 ++ ('\n' :: ((wsl ++ ('\x7b' :: (mid ++ ['\x7d'])) ++ wsr)
      ++ ('\n' :: fence3))))
    ('\n' :: ((wsl ++ ('\x7b' :: (mid ++ ['\x7d'])) ++ wsr) ++ ('\n' :: fence3)))
    ('\n' :: ((wsl ++ ('\x7b' :: (mid ++ ['\x7d'])) ++ wsr) ++ ['\n']))
    hstrip hstep2 hstep3 (step_suffix _)
  rw [hmain]
  exact final_strip mid wsl wsr hl hr

/-- C8: for a JSON-object payload text (stripped form starting with a
left brace and ending with a right brace), wrapping it in leading and
trailing triple-backtick fence markers — with or without the "json"
language tag, with surrounding whitespace — cleans to the same text, so
any decoder parses the wrapped response to the same review object as the
unwrapped payload. -/
theorem C8_fence_strip_idempotent (decode : List Char → Option ReviewDict)
    (p ws1 ws2 : List Char)
    (h1 : ∀ c ∈ ws1, isPySpace c = true) (h2 : ∀ c ∈ ws2, isPySpace c = true)
    (hh : (pyStrip p).head? = some '\x7b')
    (hl : (pyStrip p).getLast? = some '\x7d') :
    decode (cleanResponse (wrapTag ws1 p ws2)) = decode (cleanResponse p) ∧
    decode (cleanResponse (wrapPlain ws1 p ws2)) = decode (cleanResponse p) := by
  obtain ⟨mid, hq⟩ := head_getLast_decomp (pyStrip p) hh hl
  obtain ⟨wsl, wsr, hwl, hwr, hp⟩ := pyStrip_decomp p
  rw [hq] at hp
  have hcp : cleanResponse p = '\x7b' :: (mid ++ ['\x7d']) := by
    rw [hp]
    exact cleanResponse_json_text mid wsl wsr hwl hwr
  constructor
  · rw [hcp, hp, cleanResponse_wrapTag mid wsl wsr ws1 ws2 h1 h2 hwl hwr]
  · rw [hcp, hp, cleanResponse_wrapPlain mid wsl wsr ws1 ws2 h1 h2 hwl hwr]

/-- A concrete JSON payload text. -/
def pW8 : List Char := "\x7b\"a\": 1\x7d".toList

/-- A concrete decoder accepting exactly `pW8`. -/
def decodeW8 : List Char → Option ReviewDict :=
  fun s => if s = pW8 then some reviewW0 else none

set_option maxRecDepth 10000 in
/-- Witness for C8 at a concrete payload with single-character
whitespace surroundings. -/
theorem C8_fence_strip_idempotent_witness :
    decodeW8 (cleanResponse (wrapTag [' '] pW8 ['\n'])) =
      decodeW8 (cleanResponse pW8) ∧
    decodeW8 (cleanResponse (wrapPlain [' '] pW8 ['\n'])) =
      decodeW8 (cleanResponse pW8) :=
  C8_fence_strip_idempotent decodeW8 pW8 [' '] ['\n']
    (by decide) (by decide) (by decide) (by decide)
